import Mathlib

/-!
Verification of the raccoon reconnaissance agent (src/raccoon.py).

The development shallowly embeds the program's data model (Header, Parameter,
Request, Response, State), the structured action codec, the HTTP executor's
request-building logic, and the bounded agent loop, and proves the spec's
claims about them.
-/

namespace Raccoon

set_option maxRecDepth 8000

/-- One HTTP header, `class Header(rg.Model)`: a name attribute and a
whitespace-trimmed value. -/
structure Header where
  name : String
  value : String
deriving DecidableEq, Repr

/-- One URL query parameter, `class Parameter(rg.Model)`. -/
structure Parameter where
  name : String
  value : String
deriving DecidableEq, Repr

/-- The single concrete Action, `class Request(Action)`: upper-cased method,
path, header list, url parameter list, trimmed body. -/
structure Request where
  method : String
  path : String
  headers : List Header
  url_params : List Parameter
  body : String
deriving DecidableEq, Repr

/-- An HTTP response record, `class Response(rg.Model)`. -/
structure Response where
  status_code : Nat
  headers : List Header
  body : String
deriving DecidableEq, Repr

/-! ### Structured action codec

Modelled from the spec: the `rigging` library that implements
`Request.to_pretty_xml` and `Chat.try_parse_many` is an external dependency,
not part of this repository.  The spec (§4.1, §6) fixes the contract: a tagged
block naming the action type, carrying a method attribute and a path
attribute, nested repeated header and url-parameter entries (an attribute
name plus a trimmed text value), and an optional trimmed text body; absent
list sections mean empty lists; `parse_many` scans arbitrary free text for
zero or more well-formed blocks, silently skipping malformed ones, and
normalizes fields (method upper-cased, values trimmed). -/

/-- Renders one header entry of the tagged format. -/
def renderHeader (h : Header) : String :=
  "<header name=\"" ++ h.name ++ "\">" ++ h.value ++ "</header>"

/-- Renders one url-parameter entry of the tagged format. -/
def renderParam (p : Parameter) : String :=
  "<url_param name=\"" ++ p.name ++ "\">" ++ p.value ++ "</url_param>"

/-- Modelled from the spec: the tagged textual rendering of a `Request`
(`rigging`'s `to_pretty_xml` on the `Request` model). -/
def Request.renderXml (r : Request) : String :=
  "<request method=\"" ++ r.method ++ "\" path=\"" ++ r.path ++ "\">"
    ++ "<headers>" ++ String.join (r.headers.map renderHeader) ++ "</headers>"
    ++ "<url_params>" ++ String.join (r.url_params.map renderParam) ++ "</url_params>"
    ++ "<body>" ++ r.body ++ "</body>"
    ++ "</request>"

/-- The canonical example instance built inside `Request.xml_example`. -/
def exampleRequest : Request :=
  { method := "GET"
    path := "/$path"
    headers := [{ name := "X-Header", value := "my-value" }]
    url_params := [{ name := "name", value := "test-param" }]
    body := "$body" }

/-- `Request.xml_example`: the canonical example rendered in the tagged
format, embedded into every prompt. -/
def Request.xmlExample : String :=
  exampleRequest.renderXml

/-! Character-list string utilities used by the codec.  (Lean's own
`String.toUpper` and `String.trim` recurse on byte positions and do not
reduce inside the kernel, so the Python `str.upper` / `str.strip`
normalizations are embedded directly over the character list.) -/

/-- Python `str.upper` (pydantic `StringConstraints(to_upper=True)`),
character by character. -/
def strUpper (s : String) : String :=
  (s.data.map Char.toUpper).asString

/-- Python `str.strip` (pydantic `StringConstraints(strip_whitespace=True)`):
removes leading and trailing whitespace. -/
def strTrim (s : String) : String :=
  ((s.data.dropWhile Char.isWhitespace).reverse.dropWhile Char.isWhitespace).reverse.asString

/-! Character-list scanning utilities used by the parser. -/

/-- Splits `l` at the first occurrence of `sep`, returning the part before it
and the part after it; `none` when `sep` does not occur. -/
def breakOn (sep : List Char) : List Char → Option (List Char × List Char)
  | [] => if sep = [] then some ([], []) else none
  | c :: cs =>
    if sep.isPrefixOf (c :: cs) then some ([], (c :: cs).drop sep.length)
    else (breakOn sep cs).map (fun p => (c :: p.1, p.2))

/-- The text after the first occurrence of `sep`, if any. -/
def afterSep (s sep : List Char) : Option (List Char) :=
  (breakOn sep s).map (·.2)

/-- The text before the first occurrence of `sep`, if any. -/
def beforeSep (s sep : List Char) : Option (List Char) :=
  (breakOn sep s).map (·.1)

/-- The text strictly between the first occurrence of `pre` and the next
occurrence of `post` after it. -/
def betweenSep (s pre post : List Char) : Option (List Char) :=
  (afterSep s pre).bind (fun t => beforeSep t post)

/-- All the segments following each occurrence of `sep` (fuel-bounded scan;
`fuel` at least the length of `s` suffices). -/
def segmentsAfter (fuel : Nat) (sep s : List Char) : List (List Char) :=
  match fuel with
  | 0 => []
  | fuel + 1 =>
    match breakOn sep s with
    | none => []
    | some (_, rest) => rest :: segmentsAfter fuel sep rest

/-- The value of attribute `name` inside an attribute string:
the text between `name="` and the closing quote. -/
def attrValue (attrs : List Char) (name : String) : Option String :=
  (betweenSep attrs (name.data ++ ('='  :: '\"' :: [])) ['\"']).map List.asString

/-- The raw, un-normalized fields extracted from one tagged block, before
field-level normalization is applied. -/
structure RawRequest where
  method : String
  path : String
  headers : Option (List (String × String))
  url_params : Option (List (String × String))
  body : Option String
deriving DecidableEq, Repr

/-- Parses the repeated child entries (`<tag name="...">value</tag>`) of a
list section; malformed entries are skipped. -/
def parseEntries (tag : String) (sec : List Char) : List (String × String) :=
  (segmentsAfter (sec.length + 1) ("<" ++ tag ++ " ").data sec).filterMap fun e => do
    let attrs ← beforeSep e ['>']
    let name ← attrValue attrs "name"
    let rest ← afterSep e ['>']
    let value ← beforeSep rest ("</" ++ tag ++ ">").data
    pure (name, value.asString)

/-- Extracts the raw fields of one candidate block: the segment following
`<request ` up to `</request>`, its outer attributes and its child
sections.  `none` when the block is malformed. -/
def extractRaw (seg : List Char) : Option RawRequest := do
  let block ← beforeSep seg "</request>".data
  let attrs ← beforeSep block ['>']
  let inner ← afterSep block ['>']
  let method ← attrValue attrs "method"
  let path ← attrValue attrs "path"
  let headers := (betweenSep inner "<headers>".data "</headers>".data).map (parseEntries "header")
  let url_params := (betweenSep inner "<url_params>".data "</url_params>".data).map (parseEntries "url_param")
  let body := (betweenSep inner "<body>".data "</body>".data).map List.asString
  pure ⟨method, path, headers, url_params, body⟩

/-- Field-level normalization applied when decoding a block into a `Request`:
the method is upper-cased, header, parameter and body values are trimmed,
absent sections default to empty lists and the absent body to `""`. -/
def decodeRaw (raw : RawRequest) : Request :=
  { method := strUpper raw.method
    path := raw.path
    headers := (raw.headers.getD []).map (fun p => { name := p.1, value := strTrim p.2 })
    url_params := (raw.url_params.getD []).map (fun p => { name := p.1, value := strTrim p.2 })
    body := strTrim (raw.body.getD "") }

/-- Parses one candidate block segment into a `Request`, if well-formed. -/
def parseBlock (seg : List Char) : Option Request :=
  (extractRaw seg).map decodeRaw

/-- Modelled from the spec: `parse_many` — scans arbitrary free text for zero
or more well-formed tagged blocks; malformed or absent blocks are silently
skipped, so the result may be empty. -/
def parseMany (text : String) : List Request :=
  (segmentsAfter (text.data.length + 1) "<request ".data text.data).filterMap parseBlock

/-! ### HTTP executor: `send_request`

`send_request` first tries `json.loads(request.body)` (falling back to `None`
on `JSONDecodeError`), then builds the transport call with
`client.build_request(method=…, url=…, headers={h.name: h.value for h in
request.headers}, content=request.body if not json_body else None,
json=json_body)`.  The embedding records the arguments handed to the
transport in a `BuiltRequest` value.  `json.loads` is the Python standard
library JSON decoder, embedded below as a fuel-bounded recursive-descent
parser. -/

/-- A parsed JSON value as produced by Python's `json.loads`.  Numbers are
kept exactly as a decimal mantissa and a power-of-ten exponent; the
non-standard constants `NaN`/`Infinity` that Python accepts get their own
constructors. -/
inductive Json where
  | null
  | bool (b : Bool)
  | num (mantissa : Int) (exp10 : Int)
  | str (s : String)
  | arr (elems : List Json)
  | obj (fields : List (String × Json))
  | nan
  | inf (neg : Bool)
deriving Repr

/-- JSON insignificant whitespace. -/
def jsonWs (c : Char) : Bool :=
  c == ' ' || c == '\t' || c == '\n' || c == '\r'

/-- Drops leading JSON whitespace. -/
def skipJsonWs (l : List Char) : List Char :=
  l.dropWhile jsonWs

/-- Consumes an exact literal, returning the remainder. -/
def expectLit (lit : List Char) (l : List Char) : Option (List Char) :=
  if lit.isPrefixOf l then some (l.drop lit.length) else none

/-- One-character JSON string escapes. -/
def escChar (c : Char) : Option Char :=
  if c == '\"' then some '\"'
  else if c == '\\' then some '\\'
  else if c == '/' then some '/'
  else if c == 'b' then some (Char.ofNat 8)
  else if c == 'f' then some (Char.ofNat 12)
  else if c == 'n' then some '\n'
  else if c == 'r' then some '\r'
  else if c == 't' then some '\t'
  else none

/-- Hexadecimal digit value. -/
def hexVal (c : Char) : Option Nat :=
  if c.isDigit then some (c.toNat - '0'.toNat)
  else if 'a' ≤ c ∧ c ≤ 'f' then some (c.toNat - 'a'.toNat + 10)
  else if 'A' ≤ c ∧ c ≤ 'F' then some (c.toNat - 'A'.toNat + 10)
  else none

/-- Parses the body of a JSON string after the opening quote, returning the
decoded characters and the remainder after the closing quote. -/
def parseStringBody : Nat → List Char → Option (List Char × List Char)
  | 0, _ => none
  | _ + 1, [] => none
  | fuel + 1, c :: cs =>
    if c == '\"' then some ([], cs)
    else if c == '\\' then
      match cs with
      | [] => none
      | e :: cs' =>
        match escChar e with
        | some ec => (parseStringBody fuel cs').map (fun p => (ec :: p.1, p.2))
        | none =>
          if e == 'u' then
            match cs' with
            | h1 :: h2 :: h3 :: h4 :: cs'' => do
              let v1 ← hexVal h1
              let v2 ← hexVal h2
              let v3 ← hexVal h3
              let v4 ← hexVal h4
              let p ← parseStringBody fuel cs''
              pure (Char.ofNat (((v1 * 16 + v2) * 16 + v3) * 16 + v4) :: p.1, p.2)
            | _ => none
          else none
    else (parseStringBody fuel cs).map (fun p => (c :: p.1, p.2))

/-- Decimal digits to a natural number. -/
def digitsToNat (ds : List Char) : Nat :=
  ds.foldl (fun n c => n * 10 + (c.toNat - '0'.toNat)) 0

/-- Parses a JSON number (sign, integer part without leading zeros, optional
fraction, optional exponent) into mantissa/exponent form. -/
def parseNumber (l : List Char) : Option (Json × List Char) :=
  let (neg, l1) := match l with
    | '-' :: t => (true, t)
    | _ => (false, l)
  let intDigits := l1.takeWhile Char.isDigit
  let l2 := l1.dropWhile Char.isDigit
  if intDigits.isEmpty then none
  else if intDigits.length > 1 ∧ intDigits.head? = some '0' then none
  else
    let fracOk : Option (List Char × List Char) := match l2 with
      | '.' :: t =>
        let fd := t.takeWhile Char.isDigit
        if fd.isEmpty then none else some (fd, t.dropWhile Char.isDigit)
      | _ => some ([], l2)
    match fracOk with
    | none => none
    | some (fracDigits, l3) =>
      let expOk : Option (Int × List Char) := match l3 with
        | 'e' :: t | 'E' :: t =>
          let (eneg, t1) := match t with
            | '-' :: t' => (true, t')
            | '+' :: t' => (false, t')
            | _ => (false, t)
          let ed := t1.takeWhile Char.isDigit
          if ed.isEmpty then none
          else some (if eneg then -(digitsToNat ed : Int) else (digitsToNat ed : Int),
                     t1.dropWhile Char.isDigit)
        | _ => some (0, l3)
      match expOk with
      | none => none
      | some (e, l4) =>
        let mantissa : Int := digitsToNat (intDigits ++ fracDigits)
        some (Json.num (if neg then -mantissa else mantissa) (e - fracDigits.length), l4)

/-- Parses one JSON value, returning it and the unconsumed remainder.  The
fuel argument bounds the recursion; any fuel of at least the input length
plus one is enough.  Arrays and objects recurse by re-prefixing the
remainder with the opening bracket. -/
def parseValue : Nat → List Char → Option (Json × List Char)
  | 0, _ => none
  | fuel + 1, l =>
    match skipJsonWs l with
    | [] => none
    | 'n' :: rest => (expectLit "ull".data rest).map (fun r => (Json.null, r))
    | 't' :: rest => (expectLit "rue".data rest).map (fun r => (Json.bool true, r))
    | 'f' :: rest => (expectLit "alse".data rest).map (fun r => (Json.bool false, r))
    | 'N' :: rest => (expectLit "aN".data rest).map (fun r => (Json.nan, r))
    | 'I' :: rest => (expectLit "nfinity".data rest).map (fun r => (Json.inf false, r))
    | '\"' :: cs => (parseStringBody (cs.length + 1) cs).map (fun p => (Json.str p.1.asString, p.2))
    | '[' :: cs =>
      (match skipJsonWs cs with
      | ']' :: rest => some (Json.arr [], rest)
      | cs1 => do
        let (v, rest) ← parseValue fuel cs1
        match skipJsonWs rest with
        | ',' :: rest2 =>
          match skipJsonWs rest2 with
          | ']' :: _ => none
          | _ => do
            let (tailJson, rest3) ← parseValue fuel ('[' :: rest2)
            match tailJson with
            | Json.arr vs => pure (Json.arr (v :: vs), rest3)
            | _ => none
        | ']' :: rest2 => pure (Json.arr [v], rest2)
        | _ => none)
    | '{' :: cs =>
      (match skipJsonWs cs with
      | '}' :: rest => some (Json.obj [], rest)
      | '\"' :: cs2 => do
        let (key, rest) ← parseStringBody (cs2.length + 1) cs2
        match skipJsonWs rest with
        | ':' :: rest2 => do
          let (v, rest3) ← parseValue fuel rest2
          match skipJsonWs rest3 with
          | ',' :: rest4 =>
            match skipJsonWs rest4 with
            | '\"' :: _ => do
              let (tailJson, rest5) ← parseValue fuel ('{' :: rest4)
              match tailJson with
              | Json.obj fs => pure (Json.obj ((key.asString, v) :: fs), rest5)
              | _ => none
            | _ => none
          | '}' :: rest4 => pure (Json.obj [(key.asString, v)], rest4)
          | _ => none
        | _ => none
      | _ => none)
    | '-' :: 'I' :: rest => (expectLit "nfinity".data rest).map (fun r => (Json.inf true, r))
    | c :: cs =>
      if c == '-' || c.isDigit then parseNumber (c :: cs) else none

/-- Python `json.loads`: parse one JSON document and require that only
whitespace remains; `none` models a raised `JSONDecodeError`. -/
def jsonLoads (s : String) : Option Json :=
  match parseValue (s.data.length + 1) s.data with
  | some (v, rest) => if (skipJsonWs rest).isEmpty then some v else none
  | none => none

/-- Python truthiness of a parsed JSON value (`None` is handled separately):
`False`, `0`, `0.0`, `""`, `[]` and `{}` are falsy. -/
def truthy : Json → Bool
  | Json.null => false
  | Json.bool b => b
  | Json.num m _ => m != 0
  | Json.str s => s != ""
  | Json.arr l => !l.isEmpty
  | Json.obj l => !l.isEmpty
  | Json.nan => true
  | Json.inf _ => true

/-- The value of the local variable `json_body` after the try/except block:
`None` both when decoding raises and when the body is the JSON document
`null` (Python's `json.loads("null")` returns `None`). -/
def pyJsonBody (body : String) : Option Json :=
  match jsonLoads body with
  | none => none
  | some Json.null => none
  | some v => some v

/-- A Python `dict` as an insertion-ordered association list: inserting an
existing key overwrites its value in place, a new key is appended. -/
def dictInsert (d : List (String × String)) (k v : String) : List (String × String) :=
  match d with
  | [] => [(k, v)]
  | (a, b) :: rest => if a == k then (a, v) :: rest else (a, b) :: dictInsert rest k v

/-- The dict comprehension `{h.name: h.value for h in request.headers}`. -/
def headersDict (hs : List Header) : List (String × String) :=
  hs.foldl (fun d h => dictInsert d h.name h.value) []

/-- Lookup in the dict model. -/
def dictLookup (d : List (String × String)) (k : String) : Option String :=
  (d.find? (fun p => p.1 == k)).map (·.2)

/-- The arguments `send_request` passes to `client.build_request`. -/
structure BuiltRequest where
  method : String
  url : String
  headers : List (String × String)
  content : Option String
  json : Option Json
deriving Repr

/-- The request-building half of `send_request`: try `json.loads` on the
body, then call `build_request` with `content=request.body if not json_body
else None` and `json=json_body`. -/
def send_request_build (req : Request) : BuiltRequest :=
  let json_body := pyJsonBody req.body
  { method := req.method
    url := req.path
    headers := headersDict req.headers
    content := if (json_body.map truthy).getD false then none else some req.body
    json := json_body }

/-! ### Session state, `Request.run`, `State.step`, `State.get_prompt`

The `State` dataclass also holds the `httpx` client and the base chat
pipeline; both are opaque external handles, so the embedding keeps the pure
fields and abstracts the network as a transport oracle.  A transport result
of `none` models a raised network/transport error. -/

/-- The pure fields of the `State` dataclass. -/
structure AgentState where
  max_actions : Nat
  goals : List String
  next_actions : List Request
  traffic : List (Request × Response)
deriving DecidableEq, Repr

/-- The network: `client.send` composed with `send_request`'s response
mapping, abstracted as an oracle on the built request; `none` models a
raised transport error. -/
abbrev Transport : Type :=
  BuiltRequest → Option Response

/-- `send_request`: build the call from the `Request`, send it, and return
the normalized `Response` (or propagate the transport failure). -/
def send_request (tr : Transport) (req : Request) : Option Response :=
  tr (send_request_build req)

/-- `Request.run`: send the request and append the `(request, response)`
pair to `state.traffic`; a transport failure propagates with the state
unchanged. -/
def Request.runAction (tr : Transport) (req : Request) (st : AgentState) :
    Option AgentState :=
  (send_request tr req).map
    (fun resp => { st with traffic := st.traffic ++ [(req, resp)] })

/-- The pairs appended by running `acts` in order: one per action the
transport answers. -/
def execPairs (tr : Transport) (acts : List Request) : List (Request × Response) :=
  acts.filterMap (fun a => (send_request tr a).map (fun r => (a, r)))

/-- The `for action in self.next_actions: await action.run(self)` loop inside
`State.step`: actions run sequentially; a failure aborts the loop, carrying
the state as mutated so far. -/
def runQueue (tr : Transport) : List Request → AgentState → Except AgentState AgentState
  | [], st => .ok st
  | a :: rest, st =>
    match Request.runAction tr a st with
    | none => .error st
    | some st' => runQueue tr rest st'

/-- `State.step`: run every queued action in list order, then clear
`next_actions`; an exception propagates before the clear happens. -/
def State.step (tr : Transport) (st : AgentState) : Except AgentState AgentState :=
  match runQueue tr st.next_actions st with
  | .error st' => .error st'
  | .ok st' => .ok { st' with next_actions := [] }

/-- One line of the traffic summary:
`f"{r.method} {r.path} -> {res.status_code}"`. -/
def trafficLine (p : Request × Response) : String :=
  p.1.method ++ " " ++ p.1.path ++ " -> " ++ toString p.2.status_code

/-- `State.get_prompt`: the traffic summary (or a placeholder), the active
goal (last stack entry, or the default), the instructions and the canonical
action example, formatted into one prompt string. -/
def State.get_prompt (st : AgentState) : String :=
  let traffic := String.intercalate "\n" (st.traffic.map trafficLine)
  "\n# Traffic\n"
    ++ (if traffic == "" then "No traffic yet" else traffic)
    ++ "\n\n# Goal\n"
    ++ (match st.goals.getLast? with
        | some g => g
        | none => "Explore the app")
    ++ "\n\n# Actions\nUse the format below to send new HTTP requests.\n\n"
    ++ Request.xmlExample
    ++ "\n"

/-! ### The agent loop -/

/-- The `parse` callback inside `agent_loop`:
`parsed = chat.last.try_parse_many(Request); actions = parsed if parsed else
[]; state.next_actions = actions[:max_actions]`. -/
def parseStep (text : String) (maxActions : Nat) : List Request :=
  let parsed := parseMany text
  let actions := if parsed.isEmpty then [] else parsed
  actions.take maxActions

/-- One iteration of `agent_loop` after the completion text is obtained:
store the parsed, truncated actions in `next_actions`, then `State.step`. -/
def roundStep (tr : Transport) (m : Nat) (completion : String) (st : AgentState) :
    Except AgentState AgentState :=
  State.step tr { st with next_actions := parseStep completion m }

/-- `agent_loop`: `for i in range(iterations)`, one `roundStep` per
iteration.  The generation service is an oracle giving round `i`'s
completion text; since every round is deterministic, a prompt-reading
generator induces exactly the completion sequence this oracle represents.
A propagating transport error aborts the remaining iterations. -/
def agent_loop (tr : Transport) (gen : Nat → String) (m : Nat)
    (iterations : Nat) (st : AgentState) : Except AgentState AgentState :=
  (List.range iterations).foldlM (fun st i => roundStep tr m (gen i) st) st

/-- The traffic block of the prompt: the joined per-pair lines, or the
placeholder `'No traffic yet'` when the joined string is empty. -/
def trafficSummary (st : AgentState) : String :=
  let t := String.intercalate "\n" (st.traffic.map trafficLine)
  if t == "" then "No traffic yet" else t

/-- The goal block of the prompt:
`self.goals[-1] if self.goals else 'Explore the app'`. -/
def activeGoal (st : AgentState) : String :=
  match st.goals.getLast? with
  | some g => g
  | none => "Explore the app"

/-! ### Concrete fixtures used by the witnesses -/

/-- The concrete request exhibiting the falsy-JSON slip in `send_request`:
its body `"0"` is valid JSON. -/
def falsyJsonRequest : Request :=
  { method := "POST", path := "/api", headers := [], url_params := [], body := "0" }

/-- A fixed successful response. -/
def okResponse : Response :=
  { status_code := 200, headers := [], body := "" }

/-- A transport that answers every request with `okResponse`. -/
def okTransport : Transport :=
  fun _ => some okResponse

/-- A generation oracle that always proposes the canonical example action. -/
def genExample : Nat → String :=
  fun _ => Request.xmlExample

/-- The session state right after construction in `cli`. -/
def initState : AgentState :=
  { max_actions := 2
    goals := ["Explore all endpoints in the app."]
    next_actions := []
    traffic := [] }

/-- A completion with no well-formed action block in it. -/
def noActionText : String :=
  "I could not find any endpoint worth calling this round."

/-- A completion with surrounding commentary and one block whose method is
lower-case, whose header value and body carry surrounding whitespace, and
which omits the url_params section. -/
def c6Text : String :=
  "Sure, next I will probe the demo endpoint.\n<request method=\"post\" path=\"/demo\"><headers><header name=\"X-T\"> v1 </header></headers><body> hi there </body></request>\nDone."

/-- The request `c6Text` parses to. -/
def c6Req : Request :=
  { method := "POST", path := "/demo", headers := [{ name := "X-T", value := "v1" }],
    url_params := [], body := "hi there" }

/-- A transport that fails exactly on the url `/fail`. -/
def failTransport : Transport :=
  fun b => if b.url == "/fail" then none else some okResponse

/-- First queued action of the partial-failure round (succeeds). -/
def reqA : Request :=
  { method := "GET", path := "/a", headers := [], url_params := [], body := "" }

/-- Second queued action of the partial-failure round (the transport fails
on it). -/
def reqFail : Request :=
  { method := "GET", path := "/fail", headers := [], url_params := [], body := "" }

/-- Third queued action of the partial-failure round (never reached). -/
def reqC : Request :=
  { method := "GET", path := "/c", headers := [], url_params := [], body := "" }

/-- A state with the three-action queue `[reqA, reqFail, reqC]`. -/
def failState : AgentState :=
  { max_actions := 3
    goals := []
    next_actions := [reqA, reqFail, reqC]
    traffic := [] }

/-- The state a one-iteration run from `initState` ends in when every round
proposes the canonical example action and the transport always answers
`okResponse`. -/
def loopOutState : AgentState :=
  { max_actions := 2
    goals := ["Explore all endpoints in the app."]
    next_actions := []
    traffic := [(exampleRequest, okResponse)] }

/-! ## Theorems -/

/-- C1: Round-trip on the canonical example: parsing the text produced by
`Request.xml_example` yields exactly one `Request`, equal to the canonical
example instance (method "GET", path "/$path", one header
X-Header=my-value, one url parameter name=test-param, body "$body"). -/
theorem parse_many_render_example_roundtrip :
    parseMany Request.xmlExample = [exampleRequest] := by
  decide

/-- Helper: `parseStep` is literally `take maxActions` of the parse result
(the defensive `parsed if parsed else []` is the identity on lists). -/
theorem parseStep_eq_take (text : String) (m : Nat) :
    parseStep text m = (parseMany text).take m := by
  unfold parseStep
  by_cases h : (parseMany text).isEmpty
  · simp [h, List.isEmpty_iff.mp h]
  · simp [h]

/-- C3: From a completion text whose parse yields `k` action blocks and a
cap `max_actions = m`, the round queues exactly `min k m` actions, and they
are exactly the first `m` (or fewer) parsed actions in parse order; excess
actions are dropped without error. -/
theorem parse_truncates_to_max_actions (text : String) (m : Nat) :
    (parseStep text m).length = min (parseMany text).length m
      ∧ parseStep text m = (parseMany text).take m := by
  refine ⟨?_, parseStep_eq_take text m⟩
  rw [parseStep_eq_take]
  simp [List.length_take, Nat.min_comm]

/-- Helper: lookup in a non-empty dict checks the head binding first. -/
theorem dictLookup_cons (a : String × String) (d : List (String × String)) (k : String) :
    dictLookup (a :: d) k = if a.1 == k then some a.2 else dictLookup d k := by
  simp only [dictLookup, List.find?]
  cases h : a.1 == k <;> simp [h]

/-- Helper: looking up `k'` after a Python-dict insert of `k ↦ v` gives `v`
when `k' = k` and the previous binding otherwise. -/
theorem dictLookup_dictInsert (d : List (String × String)) (k v k' : String) :
    dictLookup (dictInsert d k v) k' = if k' == k then some v else dictLookup d k' := by
  induction d with
  | nil =>
    simp only [dictInsert, dictLookup_cons]
    by_cases h : k' = k
    · subst h; simp
    · simp [beq_eq_false_iff_ne.mpr h, beq_eq_false_iff_ne.mpr (Ne.symm h), dictLookup]
  | cons a rest ih =>
    obtain ⟨a1, a2⟩ := a
    simp only [dictInsert]
    by_cases h1 : a1 = k
    · subst h1
      simp only [beq_self_eq_true, if_true, dictLookup_cons]
      by_cases h2 : k' = a1
      · subst h2; simp
      · simp [beq_eq_false_iff_ne.mpr (fun e : a1 = k' => h2 e.symm),
          beq_eq_false_iff_ne.mpr h2]
    · simp only [beq_eq_false_iff_ne.mpr h1, Bool.false_eq_true, if_false, dictLookup_cons]
      by_cases h2 : k' = a1
      · subst h2
        simp [beq_eq_false_iff_ne.mpr h1]
      · have e2 : (a1 == k') = false := beq_eq_false_iff_ne.mpr (fun e => h2 e.symm)
        simp [e2, ih]

/-- Helper: lookup after folding `dictInsert` over a header list gives the
value of the last header with the looked-up name, else the prior binding. -/
theorem dictLookup_foldl_headers (hs : List Header) (d : List (String × String)) (k : String) :
    dictLookup (hs.foldl (fun d h => dictInsert d h.name h.value) d) k =
      match (hs.filter (fun h => h.name == k)).getLast? with
      | some h => some h.value
      | none => dictLookup d k := by
  induction hs generalizing d with
  | nil => simp
  | cons h t ih =>
    simp only [List.foldl_cons, ih, List.filter_cons]
    by_cases hk : h.name = k
    · simp only [beq_iff_eq.mpr hk, if_true]
      cases e : (t.filter (fun h => h.name == k)).getLast? with
      | some h' => simp [List.getLast?_cons, e]
      | none => simp [List.getLast?_cons, e, dictLookup_dictInsert, beq_iff_eq, hk]
    · simp only [beq_eq_false_iff_ne.mpr hk, Bool.false_eq_true, if_false]
      cases e : (t.filter (fun h => h.name == k)).getLast? <;>
        simp [e, dictLookup_dictInsert, beq_eq_false_iff_ne.mpr (fun x : k = h.name => hk x.symm)]

/-- C9: In the header mapping `send_request` forwards to the transport, each
name is bound to the value of the last header with that name in the
request's list (last write wins); names present only once keep their own
value. -/
theorem headers_last_write_wins (req : Request) (k : String) :
    dictLookup (send_request_build req).headers k =
      ((req.headers.filter (fun h => h.name == k)).getLast?).map Header.value := by
  have := dictLookup_foldl_headers req.headers [] k
  simp only [send_request_build, headersDict]
  rw [this]
  cases (req.headers.filter (fun h => h.name == k)).getLast? <;> simp [dictLookup]

/-- C2 (code bug): the body `"0"` is valid JSON (it decodes to the number
0), yet `send_request` builds the call with the body as raw `content` as
well, because `if not json_body` treats a falsy decoded value (0, false,
"", [], {}) — and the `null` document, decoded to `None` — exactly like a
decode failure; the claimed dichotomy (valid JSON ⇒ JSON payload and no raw
content) fails here. -/
theorem send_request_falsy_json_body_bug :
    jsonLoads "0" = some (Json.num 0 0)
      ∧ (send_request_build falsyJsonRequest).content = some "0"
      ∧ (send_request_build falsyJsonRequest).json = some (Json.num 0 0) :=
  ⟨rfl, rfl, rfl⟩

/-- C6: every parsed `Request` is the normalization of the raw extracted
block: its method is the upper-cased input method text, every header value,
url-parameter value and the body are whitespace-trimmed, an absent headers
or url_params section yields the empty list and an absent body the empty
string. -/
theorem parse_normalizes_fields (text : String) (r : Request)
    (h : r ∈ parseMany text) :
    ∃ seg raw,
      seg ∈ segmentsAfter (text.data.length + 1) "<request ".data text.data
      ∧ extractRaw seg = some raw
      ∧ r.method = strUpper raw.method
      ∧ r.path = raw.path
      ∧ r.headers = (raw.headers.getD []).map (fun p => { name := p.1, value := strTrim p.2 })
      ∧ r.url_params = (raw.url_params.getD []).map (fun p => { name := p.1, value := strTrim p.2 })
      ∧ r.body = strTrim (raw.body.getD "")
      ∧ (raw.headers = none → r.headers = [])
      ∧ (raw.url_params = none → r.url_params = [])
      ∧ (raw.body = none → r.body = "") := by
  unfold parseMany at h
  rw [List.mem_filterMap] at h
  obtain ⟨seg, hseg, hparse⟩ := h
  unfold parseBlock at hparse
  rw [Option.map_eq_some'] at hparse
  obtain ⟨raw, hraw, hdec⟩ := hparse
  subst hdec
  refine ⟨seg, raw, hseg, hraw, rfl, rfl, rfl, rfl, rfl, ?_, ?_, ?_⟩
  · intro hn; simp [decodeRaw, hn]
  · intro hn; simp [decodeRaw, hn]
  · intro hn; simp [decodeRaw, hn]; rfl

/-- Witness for C6 at the concrete completion `c6Text` (lower-case method,
padded header value and body, absent url_params section). -/
theorem parse_normalizes_fields_witness :
    ∃ seg raw,
      seg ∈ segmentsAfter (c6Text.data.length + 1) "<request ".data c6Text.data
      ∧ extractRaw seg = some raw
      ∧ c6Req.method = strUpper raw.method
      ∧ c6Req.path = raw.path
      ∧ c6Req.headers = (raw.headers.getD []).map (fun p => { name := p.1, value := strTrim p.2 })
      ∧ c6Req.url_params = (raw.url_params.getD []).map (fun p => { name := p.1, value := strTrim p.2 })
      ∧ c6Req.body = strTrim (raw.body.getD "")
      ∧ (raw.headers = none → c6Req.headers = [])
      ∧ (raw.url_params = none → c6Req.url_params = [])
      ∧ (raw.body = none → c6Req.body = "") :=
  parse_normalizes_fields c6Text c6Req (by decide)

/-- C7: parsing is total — on a completion text with no well-formed action
block the round stores the empty queue, executes zero actions (no traffic
appended, no error raised), and hands the loop a successful result so it
advances. -/
theorem empty_parse_round_is_ok (tr : Transport) (m : Nat) (text : String)
    (st : AgentState) (h : parseMany text = []) :
    roundStep tr m text st = Except.ok { st with next_actions := [] } := by
  unfold roundStep parseStep
  rw [h]
  simp [State.step, runQueue]

/-- Witness for C7: a round on a block-free completion succeeds and leaves
the traffic untouched. -/
theorem empty_parse_round_is_ok_witness :
    roundStep okTransport 2 noActionText initState
      = Except.ok { initState with next_actions := [] } :=
  empty_parse_round_is_ok okTransport 2 noActionText initState (by decide)

/-- Helper: a successful action run appends exactly the transport's pairs,
one per queued action, and touches nothing else. -/
theorem runQueue_ok (tr : Transport) :
    ∀ (acts : List Request) (st out : AgentState), runQueue tr acts st = Except.ok out →
      out = { st with traffic := st.traffic ++ execPairs tr acts }
        ∧ (execPairs tr acts).length = acts.length := by
  intro acts
  induction acts with
  | nil =>
    intro st out h
    simp only [runQueue] at h
    cases h
    simp [execPairs]
  | cons a rest ih =>
    intro st out h
    simp only [runQueue, Request.runAction] at h
    cases e : send_request tr a with
    | none => rw [e] at h; exact (Except.noConfusion h)
    | some resp =>
      rw [e] at h
      simp only [Option.map_some'] at h
      obtain ⟨ho, hl⟩ := ih _ _ h
      constructor
      · rw [ho]
        simp [execPairs, e, List.filterMap_cons]
      · simp [execPairs, List.filterMap_cons, e] at hl ⊢
        exact hl

/-- Helper: a successful `State.step` appends one pair per queued action and
clears the queue. -/
theorem step_ok (tr : Transport) (st out : AgentState)
    (h : State.step tr st = Except.ok out) :
    out = { st with next_actions := [],
                    traffic := st.traffic ++ execPairs tr st.next_actions }
      ∧ (execPairs tr st.next_actions).length = st.next_actions.length := by
  unfold State.step at h
  cases e : runQueue tr st.next_actions st with
  | error err => rw [e] at h; exact (Except.noConfusion h)
  | ok mid =>
    rw [e] at h
    cases h
    obtain ⟨ho, hl⟩ := runQueue_ok tr _ _ _ e
    subst ho
    exact ⟨rfl, hl⟩

/-- Helper: a successful round appends one pair per parsed-and-truncated
action of its completion text. -/
theorem roundStep_ok (tr : Transport) (m : Nat) (c : String) (st out : AgentState)
    (h : roundStep tr m c st = Except.ok out) :
    out = { st with next_actions := [],
                    traffic := st.traffic ++ execPairs tr (parseStep c m) }
      ∧ (execPairs tr (parseStep c m)).length = (parseStep c m).length := by
  unfold roundStep at h
  obtain ⟨ho, hl⟩ := step_ok tr _ _ h
  exact ⟨ho, hl⟩

/-- Helper: the loop over zero iterations returns the state unchanged. -/
theorem agent_loop_zero (tr : Transport) (gen : Nat → String) (m : Nat) (st : AgentState) :
    agent_loop tr gen m 0 st = Except.ok st :=
  rfl

/-- Helper: the loop over `n + 1` iterations is the loop over `n` iterations
followed by one round on completion `gen n`. -/
theorem agent_loop_succ (tr : Transport) (gen : Nat → String) (m n : Nat) (st : AgentState) :
    agent_loop tr gen m (n + 1) st
      = agent_loop tr gen m n st >>= roundStep tr m (gen n) := by
  unfold agent_loop
  rw [List.range_succ, List.foldlM_append]
  congr 1
  funext x
  simp [List.foldlM]

/-- Helper: with a transport that always answers, every queue run
succeeds. -/
theorem runQueue_total (trT : BuiltRequest → Response) :
    ∀ (acts : List Request) (st : AgentState),
      ∃ out, runQueue (fun b => some (trT b)) acts st = Except.ok out := by
  intro acts
  induction acts with
  | nil => intro st; exact ⟨st, rfl⟩
  | cons a rest ih =>
    intro st
    simp only [runQueue, Request.runAction, send_request, Option.map_some']
    exact ih _

/-- Helper: with a transport that always answers, the loop never aborts. -/
theorem agent_loop_total (trT : BuiltRequest → Response) (gen : Nat → String) (m : Nat) :
    ∀ (n : Nat) (st : AgentState),
      ∃ out, agent_loop (fun b => some (trT b)) gen m n st = Except.ok out := by
  intro n
  induction n with
  | zero => intro st; exact ⟨st, rfl⟩
  | succ n ih =>
    intro st
    obtain ⟨mid, hmid⟩ := ih st
    rw [agent_loop_succ, hmid]
    obtain ⟨out, hout⟩ := runQueue_total trT (parseStep (gen n) m)
      { mid with next_actions := parseStep (gen n) m }
    refine ⟨{ out with next_actions := [] }, ?_⟩
    simp only [Bind.bind, Except.bind, roundStep, State.step]
    rw [hout]

/-- C5: the agent loop performs exactly `iterations` rounds and then stops:
zero iterations return the state untouched, `n + 1` iterations are the `n`
iterations followed by exactly one more round on the `n`-th completion —
whatever each round's parse yields — and under a transport that always
answers, the loop completes for every generator, every bound, and every
state (including rounds that parse to zero actions). -/
theorem agent_loop_exactly_n_rounds (tr : Transport) (gen : Nat → String)
    (m n : Nat) (st : AgentState) :
    agent_loop tr gen m 0 st = Except.ok st
      ∧ agent_loop tr gen m (n + 1) st
          = agent_loop tr gen m n st >>= roundStep tr m (gen n)
      ∧ ∀ trT : BuiltRequest → Response,
          ∃ out, agent_loop (fun b => some (trT b)) gen m n st = Except.ok out :=
  ⟨agent_loop_zero tr gen m st, agent_loop_succ tr gen m n st,
    fun trT => agent_loop_total trT gen m n st⟩

/-- C4: traffic is append-only across the whole run — a completed run of
`n` rounds extends the starting traffic, in order, with exactly the pairs
executed round by round, and its length grows by the sum of the per-round
action counts. -/
theorem traffic_append_only (tr : Transport) (gen : Nat → String) (m n : Nat)
    (st out : AgentState) (h : agent_loop tr gen m n st = Except.ok out) :
    out.traffic = st.traffic
        ++ ((List.range n).map (fun i => execPairs tr (parseStep (gen i) m))).flatten
      ∧ out.traffic.length = st.traffic.length
        + ((List.range n).map (fun i => (parseStep (gen i) m).length)).sum := by
  induction n generalizing out with
  | zero =>
    cases h
    simp
  | succ n ih =>
    rw [agent_loop_succ] at h
    cases e : agent_loop tr gen m n st with
    | error err =>
      rw [e] at h
      simp only [Bind.bind, Except.bind] at h
      exact (Except.noConfusion h)
    | ok mid =>
      rw [e] at h
      simp only [Bind.bind, Except.bind] at h
      obtain ⟨ho, hl⟩ := roundStep_ok tr m (gen n) mid out h
      obtain ⟨iht, ihl⟩ := ih mid e
      subst ho
      constructor
      · simp only [iht, List.range_succ, List.map_append, List.flatten_append,
          List.map_cons, List.map_nil, List.flatten_cons, List.flatten_nil,
          List.append_nil, List.append_assoc]
      · simp only [List.length_append, ihl, hl, List.range_succ, List.map_append,
          List.map_cons, List.map_nil, List.sum_append, List.sum_cons, List.sum_nil]
        omega

/-- Helper: when every action of `pre` gets an answer, `execPairs` has one
pair per action. -/
theorem execPairs_length_of_isSome (tr : Transport) :
    ∀ pre : List Request, (∀ b ∈ pre, (send_request tr b).isSome) →
      (execPairs tr pre).length = pre.length := by
  intro pre
  induction pre with
  | nil => intro _; rfl
  | cons b rest ih =>
    intro hall
    obtain ⟨r, hr⟩ := Option.isSome_iff_exists.mp (hall b (List.mem_cons_self b rest))
    have hrest := ih (fun x hx => hall x (List.mem_cons_of_mem _ hx))
    simp [execPairs, List.filterMap_cons, hr] at hrest ⊢
    exact hrest

/-- Helper: the queue run fails exactly at the first failing action,
carrying the pairs of the actions before it. -/
theorem runQueue_error_at (tr : Transport) :
    ∀ (pre : List Request) (a : Request) (rest : List Request) (st : AgentState),
      (∀ b ∈ pre, (send_request tr b).isSome) →
      send_request tr a = none →
      runQueue tr (pre ++ a :: rest) st
        = Except.error { st with traffic := st.traffic ++ execPairs tr pre } := by
  intro pre
  induction pre with
  | nil =>
    intro a rest st _ hfail
    simp [runQueue, Request.runAction, hfail, execPairs]
  | cons b pre' ih =>
    intro a rest st hall hfail
    obtain ⟨r, hr⟩ := Option.isSome_iff_exists.mp (hall b (List.mem_cons_self b pre'))
    have hih := ih a rest { st with traffic := st.traffic ++ [(b, r)] }
      (fun x hx => hall x (List.mem_cons_of_mem _ hx)) hfail
    rw [List.cons_append]
    simp only [runQueue, Request.runAction, hr, Option.map_some', List.append_eq]
    rw [hih]
    simp [execPairs, List.filterMap_cons, hr]

/-- C10: if the transport fails on the `j`-th queued action, `State.step`
propagates the error with exactly the pairs of the first `j - 1` actions
appended to the traffic — nothing for the failing action or any later one —
and with `next_actions` still holding the full round's queue, since the
clear only happens after all actions complete. -/
theorem step_stops_at_first_transport_failure (tr : Transport) (st : AgentState)
    (pre : List Request) (a : Request) (rest : List Request)
    (hq : st.next_actions = pre ++ a :: rest)
    (hpre : ∀ b ∈ pre, (send_request tr b).isSome)
    (hfail : send_request tr a = none) :
    State.step tr st = Except.error { st with traffic := st.traffic ++ execPairs tr pre }
      ∧ (execPairs tr pre).length = pre.length
      ∧ ({ st with traffic := st.traffic ++ execPairs tr pre } : AgentState).next_actions
          = st.next_actions := by
  refine ⟨?_, execPairs_length_of_isSome tr pre hpre, rfl⟩
  unfold State.step
  rw [hq, runQueue_error_at tr pre a rest st hpre hfail]
  simp [hq]

/-- Witness for C10: on the queue `[reqA, reqFail, reqC]` with a transport
failing exactly on `/fail`, the step errors out after appending only
`reqA`'s pair, and the queue is still intact in the error state. -/
theorem step_stops_at_first_transport_failure_witness :
    State.step failTransport failState
        = Except.error { failState with
            traffic := failState.traffic ++ execPairs failTransport [reqA] }
      ∧ (execPairs failTransport [reqA]).length = [reqA].length
      ∧ ({ failState with
            traffic := failState.traffic ++ execPairs failTransport [reqA] }
          : AgentState).next_actions = failState.next_actions :=
  step_stops_at_first_transport_failure failTransport failState [reqA] reqFail [reqC]
    (by decide) (by decide) (by decide)

/-- Witness for C4: one round proposing the canonical example against an
always-answering transport appends exactly that round's single pair. -/
theorem traffic_append_only_witness :
    loopOutState.traffic = initState.traffic
        ++ ((List.range 1).map (fun i => execPairs okTransport (parseStep (genExample i) 2))).flatten
      ∧ loopOutState.traffic.length = initState.traffic.length
        + ((List.range 1).map (fun i => (parseStep (genExample i) 2).length)).sum :=
  traffic_append_only okTransport genExample 2 1 initState loopOutState (by rfl)

/-- Helper: `String.intercalate.go` only ever grows its accumulator. -/
theorem intercalate_go_length (s : String) :
    ∀ (l : List String) (acc : String),
      acc.length ≤ (String.intercalate.go acc s l).length := by
  intro l
  induction l with
  | nil => intro acc; exact Nat.le_refl _
  | cons a as ih =>
    intro acc
    have hstep : String.intercalate.go acc s (a :: as)
        = String.intercalate.go (acc ++ s ++ a) s as := rfl
    rw [hstep]
    refine Nat.le_trans ?_ (ih (acc ++ s ++ a))
    simp only [String.length_append]
    omega

/-- Helper: a traffic line always contains at least its `" -> "` separator. -/
theorem trafficLine_length (p : Request × Response) : 4 ≤ (trafficLine p).length := by
  have h4 : (" -> " : String).length = 4 := rfl
  have h1 : (" " : String).length = 1 := rfl
  simp only [trafficLine, String.length_append, h4, h1]
  omega

/-- Helper: the Python string-emptiness test `traffic or 'No traffic yet'`
coincides with list emptiness of `State.traffic`, because every rendered
traffic line is non-empty. -/
theorem trafficSummary_eq (st : AgentState) :
    trafficSummary st = (if st.traffic = [] then "No traffic yet"
      else String.intercalate "\n" (st.traffic.map trafficLine)) := by
  unfold trafficSummary
  cases e : st.traffic with
  | nil => rfl
  | cons p ps =>
    have hlen : 4 ≤ (String.intercalate "\n" (trafficLine p :: ps.map trafficLine)).length := by
      have hgo : String.intercalate "\n" (trafficLine p :: ps.map trafficLine)
          = String.intercalate.go (trafficLine p) "\n" (ps.map trafficLine) := rfl
      rw [hgo]
      exact Nat.le_trans (trafficLine_length p) (intercalate_go_length "\n" _ _)
    have hne : (String.intercalate "\n" (trafficLine p :: ps.map trafficLine) == "") = false := by
      refine beq_eq_false_iff_ne.mpr ?_
      intro hcontr
      rw [hcontr] at hlen
      simp at hlen
    have h2 : ¬(p :: ps : List (Request × Response)) = [] := List.cons_ne_nil p ps
    simp only [List.map_cons]
    simp [hne, h2]

/-- C8: `get_prompt` is a pure function of the state, splitting into the
traffic summary (one `METHOD path -> status` line per pair in traffic order,
or the placeholder when traffic is empty), the active goal (last stack
entry, or the default exploration goal), and the canonical action example
from the codec. -/
theorem get_prompt_structure (st : AgentState) :
    State.get_prompt st
        = "\n# Traffic\n" ++ trafficSummary st ++ "\n\n# Goal\n" ++ activeGoal st
            ++ "\n\n# Actions\nUse the format below to send new HTTP requests.\n\n"
            ++ Request.xmlExample ++ "\n"
      ∧ trafficSummary st = (if st.traffic = [] then "No traffic yet"
          else String.intercalate "\n" (st.traffic.map trafficLine))
      ∧ activeGoal st = (st.goals.getLast?).getD "Explore the app" := by
  refine ⟨rfl, trafficSummary_eq st, ?_⟩
  cases e : st.goals.getLast? <;> simp [activeGoal, e]

end Raccoon
